import Mathlib

/-!
Shallow embedding of the price-constraint extractor of
`src/api/app.py` (function `_extract_price_filters`) and of the
candidate-pool computation of the `/search` handler.

The extractor works by running a fixed sequence of regular-expression
passes over a lower-cased, space-padded copy of the query.  We embed the
exact regular expressions used by the source as values of a small `RE`
type and execute them with a backtracking matcher that mirrors the
semantics of Python's `re` module on these patterns: leftmost scanning,
first-alternative preference, greedy quantifiers with backtracking, and
word boundaries.  Prices are modelled as exact rationals (the source uses
Python floats; no property considered here depends on rounding).
-/

set_option maxRecDepth 100000

/-- Python `str.isspace` characters relevant to `str.strip`, `str.split`
and the regex class `\s` (ASCII fragment). -/
def isPySpace (c : Char) : Bool :=
  c == ' ' || c == '\t' || c == '\n' || c == '\r' || c == '\x0b' || c == '\x0c'

/-- Word characters for the regex `\b` boundary (`[a-zA-Z0-9_]`). -/
def isWordChar (c : Char) : Bool :=
  c.isAlphanum || c == '_'

/-- Python `str.strip()`: drop leading and trailing whitespace. -/
def pyStrip (s : List Char) : List Char :=
  ((s.dropWhile isPySpace).reverse.dropWhile isPySpace).reverse

/-- Python `str.split()` with no argument: split on whitespace runs,
dropping empty pieces. -/
def pyWords (s : List Char) : List (List Char) :=
  (s.foldr
    (fun c acc =>
      if isPySpace c then [] :: acc
      else
        match acc with
        | [] => [[c]]
        | w :: ws => (c :: w) :: ws)
    []).filter (fun w => !w.isEmpty)

/-- `" ".join(s.split())` of the source: collapse internal whitespace to
single spaces and trim. -/
def squish (s : List Char) : List Char :=
  List.intercalate [' '] (pyWords s)

/-- Whether `p` is a prefix of `s` (character lists). -/
def listStartsWith : List Char → List Char → Bool
  | [], _ => true
  | _ :: _, [] => false
  | p :: ps, c :: cs => p == c && listStartsWith ps cs

/-- Auxiliary recursion for `replaceAll`, with fuel bounded by the length
of the subject string. -/
def replaceAllAux : Nat → List Char → List Char → List Char → List Char
  | 0, s, _, _ => s
  | _, [], _, _ => []
  | f + 1, c :: rest, old, new =>
    if !old.isEmpty && listStartsWith old (c :: rest) then
      new ++ replaceAllAux f ((c :: rest).drop old.length) old new
    else
      c :: replaceAllAux f rest old new

/-- Python `s.replace(old, new)`: replace every non-overlapping
occurrence of `old` in `s`, scanning left to right. -/
def replaceAll (s old new : List Char) : List Char :=
  replaceAllAux s.length s old new

/-- Whether `pat` occurs as a contiguous substring of `s` (Python's
`in` on strings). -/
def containsSub (pat : List Char) : List Char → Bool
  | [] => listStartsWith pat []
  | c :: rest => listStartsWith pat (c :: rest) || containsSub pat rest

/-- Decimal digits of a character list read as a natural number. -/
def digitsToNat (cs : List Char) : Nat :=
  cs.foldl (fun acc c => 10 * acc + (c.toNat - 48)) 0

/-- Python's binary `min` on numbers: the first argument when the two
are equal. -/
def pymin (a b : ℚ) : ℚ := if b < a then b else a

/-- Python's binary `max` on numbers: the first argument when the two
are equal. -/
def pymax (a b : ℚ) : ℚ := if a < b then b else a

/-- Exact product of two rationals, built directly from numerators and
denominators so that it evaluates by kernel reduction. -/
def pymul (a b : ℚ) : ℚ := mkRat (a.num * b.num) (a.den * b.den)

/-- `_to_float` of the source: strip thousands separators and read the
decimal literal, an optional fraction included.  Modelled as the exact
rational value of the literal. -/
def _to_float (cs : List Char) : ℚ :=
  let cs2 := cs.filter (fun c => c != ',')
  let ip := cs2.takeWhile (fun c => c != '.')
  let fp := (cs2.dropWhile (fun c => c != '.')).drop 1
  mkRat (digitsToNat (ip ++ fp)) (10 ^ fp.length)

/-- Captured groups of a single regex match: group number paired with the
captured characters. -/
abbrev Caps := List (Nat × List Char)

/-- Regular expressions, covering exactly the constructs used by the
patterns of `_extract_price_filters`. -/
inductive RE : Type where
  | eps : RE
  | cls : (Char → Bool) → RE
  | seq : RE → RE → RE
  | alt : RE → RE → RE
  | star : RE → RE
  | opt : RE → RE
  | grp : Nat → RE → RE
  | bnd : RE

/-- The `\b` test: the characters on the two sides of the current
position differ in word-character status (string ends count as
non-word). -/
def atBoundary (prev : Option Char) (s : List Char) : Bool :=
  (match prev with | none => false | some c => isWordChar c)
    != (match s with | [] => false | c :: _ => isWordChar c)

/-- Backtracking matcher in continuation-passing style, mirroring
Python's `re` on the embedded patterns: alternatives are tried left
first, `star` and `opt` are greedy and backtrack through the
continuation, `star` bodies must consume input to iterate.  `prev` is the
character before the current position (for `\b`).  Fuel bounds the
recursion depth; `matchFuel` below is always sufficient for the patterns
of the extractor. -/
def mrun : Nat → RE → Option Char → List Char → Caps →
    (Option Char → List Char → Caps → Option (List Char × Caps)) →
    Option (List Char × Caps)
  | 0, _, _, _, _, _ => none
  | _ + 1, RE.eps, prev, s, caps, k => k prev s caps
  | _ + 1, RE.cls p, _, s, caps, k =>
    match s with
    | [] => none
    | c :: rest => if p c then k (some c) rest caps else none
  | f + 1, RE.seq a b, prev, s, caps, k =>
    mrun f a prev s caps (fun p2 s2 c2 => mrun f b p2 s2 c2 k)
  | f + 1, RE.alt a b, prev, s, caps, k =>
    match mrun f a prev s caps k with
    | some r => some r
    | none => mrun f b prev s caps k
  | f + 1, RE.star a, prev, s, caps, k =>
    match mrun f a prev s caps
        (fun p2 s2 c2 =>
          if s2.length < s.length then mrun f (RE.star a) p2 s2 c2 k else none) with
    | some r => some r
    | none => k prev s caps
  | f + 1, RE.opt a, prev, s, caps, k =>
    match mrun f a prev s caps k with
    | some r => some r
    | none => k prev s caps
  | f + 1, RE.grp n a, prev, s, caps, k =>
    mrun f a prev s caps
      (fun p2 s2 c2 => k p2 s2 ((n, s.take (s.length - s2.length)) :: c2))
  | _ + 1, RE.bnd, prev, s, caps, k =>
    if atBoundary prev s then k prev s caps else none

/-- Fuel that dominates the matcher's recursion depth on the extractor's
patterns. -/
def matchFuel (s : List Char) : Nat := 16 * s.length + 500

/-- Try to match `r` at the start of `s` (with `prev` the character
before `s`); return the length of the match and its captures. -/
def matchHere (r : RE) (prev : Option Char) (s : List Char) : Option (Nat × Caps) :=
  match mrun (matchFuel s) r prev s [] (fun _ s2 caps => some (s2, caps)) with
  | none => none
  | some (rest, caps) => some (s.length - rest.length, caps)

/-- Scan of `re.finditer`: attempt a match at every position left to
right, record non-overlapping matches (matched text and captures) and
resume after each match.  The extractor's patterns never match the empty
string; an empty match is skipped. -/
def findAllAux : Nat → RE → Option Char → List Char → List (List Char × Caps)
  | 0, _, _, _ => []
  | f + 1, r, prev, s =>
    match matchHere r prev s with
    | some (len, caps) =>
      if len = 0 then
        match s with
        | [] => []
        | c :: rest => findAllAux f r (some c) rest
      else
        (s.take len, caps) :: findAllAux f r (s.take len).getLast? (s.drop len)
    | none =>
      match s with
      | [] => []
      | c :: rest => findAllAux f r (some c) rest

/-- All matches of `r` in `s`, as `re.finditer` lists them. -/
def findAll (r : RE) (s : List Char) : List (List Char × Caps) :=
  findAllAux (s.length + 1) r none s

/-- `re.search(r, s)` viewed as a Boolean. -/
def reSearch (r : RE) (s : List Char) : Bool :=
  !(findAll r s).isEmpty

/-- Auxiliary recursion for `reSub`. -/
def reSubAux : Nat → RE → Option Char → List Char → List Char
  | 0, _, _, s => s
  | f + 1, r, prev, s =>
    match matchHere r prev s with
    | some (len, _) =>
      if len = 0 then
        match s with
        | [] => []
        | c :: rest => c :: reSubAux f r (some c) rest
      else
        ' ' :: reSubAux f r (s.take len).getLast? (s.drop len)
    | none =>
      match s with
      | [] => []
      | c :: rest => c :: reSubAux f r (some c) rest

/-- `re.sub(r, " ", s)`: replace every match of `r` in `s` with a single
space. -/
def reSub (r : RE) (s : List Char) : List Char :=
  reSubAux (s.length + 1) r none s

/-- A literal word as a regex (sequence of single-character classes). -/
def strRE (w : List Char) : RE :=
  w.foldr (fun c r => RE.seq (RE.cls (fun x => x == c)) r) RE.eps

/-- A literal string as a regex. -/
def litRE (w : String) : RE := strRE w.data

/-- The class `\d`. -/
def digitRE : RE := RE.cls Char.isDigit

/-- `_WS = r"[ \t]*"` of the source. -/
def wsRE : RE := RE.star (RE.cls (fun c => c == ' ' || c == '\t'))

/-- The class `\s` of Python's `re`. -/
def pySpaceRE : RE := RE.cls isPySpace

/-- `_NUM = r"(?:\d{1,3}(?:,\d{3})*|\d+)(?:\.\d+)?"` of the source. -/
def numRE : RE :=
  RE.seq
    (RE.alt
      (RE.seq
        (RE.seq digitRE (RE.opt (RE.seq digitRE (RE.opt digitRE))))
        (RE.star (RE.seq (litRE ",") (RE.seq digitRE (RE.seq digitRE digitRE)))))
      (RE.seq digitRE (RE.star digitRE)))
    (RE.opt (RE.seq (litRE ".") (RE.seq digitRE (RE.star digitRE))))

/-- `_CURRENCY = r"(?:\$|usd|dollars?)"` of the source. -/
def currencyRE : RE :=
  RE.alt (litRE "$")
    (RE.alt (litRE "usd") (RE.seq (litRE "dollar") (RE.opt (litRE "s"))))

/-- The optional currency suffix `(?:{_WS}{_CURRENCY})?` shared by every
bound pattern. -/
def optCurrencyRE : RE := RE.opt (RE.seq wsRE currencyRE)

/-- Interval pattern
`(?:between|from){_WS}({_NUM}){_WS}(?:and|to|-){_WS}({_NUM})(?:{_WS}{_CURRENCY})?`. -/
def patBetween : RE :=
  RE.seq (RE.alt (litRE "between") (litRE "from"))
    (RE.seq wsRE
      (RE.seq (RE.grp 1 numRE)
        (RE.seq wsRE
          (RE.seq (RE.alt (litRE "and") (RE.alt (litRE "to") (litRE "-")))
            (RE.seq wsRE
              (RE.seq (RE.grp 2 numRE) optCurrencyRE))))))

/-- Interval pattern `({_NUM}){_WS}-{_WS}({_NUM})(?:{_WS}{_CURRENCY})?`. -/
def patDash : RE :=
  RE.seq (RE.grp 1 numRE)
    (RE.seq wsRE
      (RE.seq (litRE "-")
        (RE.seq wsRE
          (RE.seq (RE.grp 2 numRE) optCurrencyRE))))

/-- Upper-bound pattern
`(?:under|below|at\s*most){_WS}({_NUM})(?:{_WS}{_CURRENCY})?`. -/
def patUnder : RE :=
  RE.seq
    (RE.alt (litRE "under")
      (RE.alt (litRE "below")
        (RE.seq (litRE "at") (RE.seq (RE.star pySpaceRE) (litRE "most")))))
    (RE.seq wsRE (RE.seq (RE.grp 1 numRE) optCurrencyRE))

/-- Upper-bound pattern `(?:<=|<){_WS}({_NUM})(?:{_WS}{_CURRENCY})?`. -/
def patLe : RE :=
  RE.seq (RE.alt (litRE "<=") (litRE "<"))
    (RE.seq wsRE (RE.seq (RE.grp 1 numRE) optCurrencyRE))

/-- Upper-bound pattern `(?:up\s*to){_WS}({_NUM})(?:{_WS}{_CURRENCY})?`. -/
def patUpTo : RE :=
  RE.seq (litRE "up")
    (RE.seq (RE.star pySpaceRE)
      (RE.seq (litRE "to")
        (RE.seq wsRE (RE.seq (RE.grp 1 numRE) optCurrencyRE))))

/-- Lower-bound pattern
`(?:over|above|at\s*least){_WS}({_NUM})(?:{_WS}{_CURRENCY})?`. -/
def patOver : RE :=
  RE.seq
    (RE.alt (litRE "over")
      (RE.alt (litRE "above")
        (RE.seq (litRE "at") (RE.seq (RE.star pySpaceRE) (litRE "least")))))
    (RE.seq wsRE (RE.seq (RE.grp 1 numRE) optCurrencyRE))

/-- Lower-bound pattern `(?:>=|>){_WS}({_NUM})(?:{_WS}{_CURRENCY})?`. -/
def patGe : RE :=
  RE.seq (RE.alt (litRE ">=") (litRE ">"))
    (RE.seq wsRE (RE.seq (RE.grp 1 numRE) optCurrencyRE))

/-- Approximation pattern
`(?:around|about|approx(?:\.|imately)?){_WS}({_NUM})(?:{_WS}{_CURRENCY})?`. -/
def patAround : RE :=
  RE.seq
    (RE.alt (litRE "around")
      (RE.alt (litRE "about")
        (RE.seq (litRE "approx") (RE.opt (RE.alt (litRE ".") (litRE "imately"))))))
    (RE.seq wsRE (RE.seq (RE.grp 1 numRE) optCurrencyRE))

/-- Exact pattern `(?:exactly){_WS}({_NUM})(?:{_WS}{_CURRENCY})?`. -/
def patExactly : RE :=
  RE.seq (litRE "exactly")
    (RE.seq wsRE (RE.seq (RE.grp 1 numRE) optCurrencyRE))

/-- Soft-heuristic pattern `\b(cheap|inexpensive|budget)\b`. -/
def patCheap : RE :=
  RE.seq RE.bnd
    (RE.seq (RE.grp 1 (RE.alt (litRE "cheap") (RE.alt (litRE "inexpensive") (litRE "budget"))))
      RE.bnd)

/-- Soft-heuristic pattern `\b(expensive|premium|high-end)\b`. -/
def patExpensive : RE :=
  RE.seq RE.bnd
    (RE.seq (RE.grp 1 (RE.alt (litRE "expensive") (RE.alt (litRE "premium") (litRE "high-end"))))
      RE.bnd)

/-- Running state of the extractor: the working text and the two
optional bounds. -/
structure ExtractState where
  s : List Char
  min_price : Option ℚ
  max_price : Option ℚ

/-- `min_price = v if min_price is None else max(min_price, v)` of the
source: a lower bound can only move up. -/
def tightenMin (mn : Option ℚ) (v : ℚ) : Option ℚ :=
  match mn with
  | none => some v
  | some m => some (pymax m v)

/-- `max_price = v if max_price is None else min(max_price, v)` of the
source: an upper bound can only move down. -/
def tightenMax (mx : Option ℚ) (v : ℚ) : Option ℚ :=
  match mx with
  | none => some v
  | some m => some (pymin m v)

/-- Text captured by group 1 of a match. -/
def group1 (caps : Caps) : List Char := (caps.lookup 1).getD []

/-- Text captured by group 2 of a match. -/
def group2 (caps : Caps) : List Char := (caps.lookup 2).getD []

/-- One pass of the extractor: list the matches of `pat` on a snapshot
of the working text (`re.finditer` runs on the string as it was when the
loop started), then for each match in order update the bounds and
replace every occurrence of the matched text by a space
(`s = s.replace(m.group(0), " ")`). -/
def runPass
    (upd : List Char → Caps → Option ℚ × Option ℚ → Option ℚ × Option ℚ)
    (pat : RE) (st : ExtractState) : ExtractState :=
  (findAll pat st.s).foldl
    (fun acc m =>
      let mm := upd m.1 m.2 (acc.min_price, acc.max_price)
      ⟨replaceAll acc.s m.1 [' '], mm.1, mm.2⟩)
    st

/-- Fold of one interval match: `lo, hi = sorted((a, b))`, then tighten
both bounds. -/
def intervalFold (mn mx : Option ℚ) (a b : ℚ) : Option ℚ × Option ℚ :=
  (tightenMin mn (pymin a b), tightenMax mx (pymax a b))

/-- Bound update of the interval pass. -/
def intervalUpd (_ : List Char) (caps : Caps) (r : Option ℚ × Option ℚ) :
    Option ℚ × Option ℚ :=
  intervalFold r.1 r.2 (_to_float (group1 caps)) (_to_float (group2 caps))

/-- Bound update of the upper-bound (under/below/...) passes. -/
def maxUpd (_ : List Char) (caps : Caps) (r : Option ℚ × Option ℚ) :
    Option ℚ × Option ℚ :=
  (r.1, tightenMax r.2 (_to_float (group1 caps)))

/-- Bound update of the lower-bound (over/above/...) passes. -/
def minUpd (_ : List Char) (caps : Caps) (r : Option ℚ × Option ℚ) :
    Option ℚ × Option ℚ :=
  (tightenMin r.1 (_to_float (group1 caps)), r.2)

/-- Bound update of the approximation pass: a `±10%` band when the match
contains `around`, `about` or `approx`, a degenerate band for
`exactly`. -/
def aroundUpd (g0 : List Char) (caps : Caps) (r : Option ℚ × Option ℚ) :
    Option ℚ × Option ℚ :=
  let v := _to_float (group1 caps)
  let band :=
    if containsSub "around".data g0 || containsSub "about".data g0
        || containsSub "approx".data g0 then
      (pymul (mkRat 9 10) v, pymul (mkRat 11 10) v)
    else
      (v, v)
  (tightenMin r.1 band.1, tightenMax r.2 band.2)

/-- Soft heuristic for `cheap|inexpensive|budget`: if the word occurs,
set a default upper bound of 15.0 only when none is set, and erase the
word. -/
def softCheap (st : ExtractState) : ExtractState :=
  if reSearch patCheap st.s then
    ⟨reSub patCheap st.s, st.min_price,
      if st.max_price = none then some 15 else st.max_price⟩
  else st

/-- Soft heuristic for `expensive|premium|high-end`: if the word occurs,
set a default lower bound of 100.0 only when none is set, and erase the
word. -/
def softExpensive (st : ExtractState) : ExtractState :=
  if reSearch patExpensive st.s then
    ⟨reSub patExpensive st.s,
      if st.min_price = none then some 100 else st.min_price,
      st.max_price⟩
  else st

/-- Final text assembly: collapse whitespace; if nothing is left, fall
back to the original raw query. -/
def finalClean (original : String) (s : List Char) : String :=
  String.mk (if (squish s).isEmpty then original.data else squish s)

/-- `_extract_price_filters` of `src/api/app.py`: parse price phrases
out of `q`, returning the cleaned query together with the optional
minimum and maximum price. -/
def _extract_price_filters (q : String) : String × Option ℚ × Option ℚ :=
  let s0 : List Char := ' ' :: (pyStrip (q.data.map Char.toLower) ++ [' '])
  let st0 : ExtractState := ⟨s0, none, none⟩
  let st1 := runPass intervalUpd patDash (runPass intervalUpd patBetween st0)
  let st2 := runPass maxUpd patUpTo (runPass maxUpd patLe (runPass maxUpd patUnder st1))
  let st3 := runPass minUpd patGe (runPass minUpd patOver st2)
  let st4 := runPass aroundUpd patExactly (runPass aroundUpd patAround st3)
  let st5 := softExpensive (softCheap st4)
  (finalClean q st5.s, st5.min_price, st5.max_price)

/-- The structured call the `/search` handler hands to the external
vector store: the embedded text comes from the cleaned query, the price
bounds become the filter, and the requested limit is
`max(top_k, 12)`. -/
structure SearchCall where
  query_text : String
  limit : ℤ
  min_price : Option ℚ
  max_price : Option ℚ

/-- Construction of the search call performed by the `/search` handler
of `src/api/app.py`. -/
def buildSearchCall (q : String) (top_k : ℤ) : SearchCall :=
  let r := _extract_price_filters q
  { query_text := r.1
    limit := max top_k 12
    min_price := r.2.1
    max_price := r.2.2 }

/-- Normalization property of a price range as the spec states it: when
both bounds are present, the lower one is at most the upper one. -/
def rangeNormalized (mn mx : Option ℚ) : Prop :=
  ∀ a b, mn = some a → mx = some b → a ≤ b

/-- The explicit minimum agrees with Mathlib's `min` on `ℚ`. -/
theorem pymin_eq_min (a b : ℚ) : pymin a b = min a b := by
  unfold pymin
  rcases le_or_lt a b with h | h
  · rw [if_neg (not_lt.mpr h), min_eq_left h]
  · rw [if_pos h, min_eq_right h.le]

/-- The explicit maximum agrees with Mathlib's `max` on `ℚ`. -/
theorem pymax_eq_max (a b : ℚ) : pymax a b = max a b := by
  unfold pymax
  rcases le_or_lt b a with h | h
  · rw [if_neg (not_lt.mpr h), max_eq_left h]
  · rw [if_pos h, max_eq_right h.le]

/-- When the original query is non-empty, the assembled cleaned text is
non-empty as well: either the collapsed working text is non-empty, or the
fallback returns the original. -/
theorem finalClean_ne (orig : String) (s : List Char) (h : orig ≠ "") :
    finalClean orig s ≠ "" := by
  unfold finalClean
  intro he
  by_cases hq : (squish s).isEmpty
  · rw [if_pos hq] at he
    exact h he
  · rw [if_neg hq] at he
    have hd : squish s = [] := congrArg String.data he
    rw [hd] at hq
    exact hq rfl

/-- A tightened lower bound is always present: the update returns the
candidate itself or the maximum of two values, never `none`. -/
theorem tightenMin_ne_none (mn : Option ℚ) (v : ℚ) : tightenMin mn v ≠ none := by
  cases mn <;> simp [tightenMin]

/-- A tightened upper bound is always present. -/
theorem tightenMax_ne_none (mx : Option ℚ) (v : ℚ) : tightenMax mx v ≠ none := by
  cases mx <;> simp [tightenMax]

/-- An interval match always sets the lower bound, so an absent lower
bound after the update is impossible. -/
theorem intervalUpd_P1 (g : List Char) (caps : Caps) (r : Option ℚ × Option ℚ)
    (h : (intervalUpd g caps r).1 = none) : r.1 = none :=
  absurd h (tightenMin_ne_none _ _)

/-- An interval match always sets the upper bound. -/
theorem intervalUpd_P2 (g : List Char) (caps : Caps) (r : Option ℚ × Option ℚ)
    (h : (intervalUpd g caps r).2 = none) : r.2 = none :=
  absurd h (tightenMax_ne_none _ _)

/-- An interval match leaves no bound absent. -/
theorem intervalUpd_strict (g : List Char) (caps : Caps) (r : Option ℚ × Option ℚ)
    (h1 : (intervalUpd g caps r).1 = none) (_h2 : (intervalUpd g caps r).2 = none) :
    False :=
  absurd h1 (tightenMin_ne_none _ _)

/-- An upper-bound match does not touch the lower bound. -/
theorem maxUpd_P1 (g : List Char) (caps : Caps) (r : Option ℚ × Option ℚ)
    (h : (maxUpd g caps r).1 = none) : r.1 = none :=
  h

/-- An upper-bound match always sets the upper bound. -/
theorem maxUpd_P2 (g : List Char) (caps : Caps) (r : Option ℚ × Option ℚ)
    (h : (maxUpd g caps r).2 = none) : r.2 = none :=
  absurd h (tightenMax_ne_none _ _)

/-- An upper-bound match leaves the upper bound present. -/
theorem maxUpd_strict (g : List Char) (caps : Caps) (r : Option ℚ × Option ℚ)
    (_h1 : (maxUpd g caps r).1 = none) (h2 : (maxUpd g caps r).2 = none) : False :=
  absurd h2 (tightenMax_ne_none _ _)

/-- A lower-bound match always sets the lower bound. -/
theorem minUpd_P1 (g : List Char) (caps : Caps) (r : Option ℚ × Option ℚ)
    (h : (minUpd g caps r).1 = none) : r.1 = none :=
  absurd h (tightenMin_ne_none _ _)

/-- A lower-bound match does not touch the upper bound. -/
theorem minUpd_P2 (g : List Char) (caps : Caps) (r : Option ℚ × Option ℚ)
    (h : (minUpd g caps r).2 = none) : r.2 = none :=
  h

/-- A lower-bound match leaves the lower bound present. -/
theorem minUpd_strict (g : List Char) (caps : Caps) (r : Option ℚ × Option ℚ)
    (h1 : (minUpd g caps r).1 = none) (_h2 : (minUpd g caps r).2 = none) : False :=
  absurd h1 (tightenMin_ne_none _ _)

/-- An approximation match always sets the lower bound. -/
theorem aroundUpd_P1 (g : List Char) (caps : Caps) (r : Option ℚ × Option ℚ)
    (h : (aroundUpd g caps r).1 = none) : r.1 = none :=
  absurd h (tightenMin_ne_none _ _)

/-- An approximation match always sets the upper bound. -/
theorem aroundUpd_P2 (g : List Char) (caps : Caps) (r : Option ℚ × Option ℚ)
    (h : (aroundUpd g caps r).2 = none) : r.2 = none :=
  absurd h (tightenMax_ne_none _ _)

/-- An approximation match leaves no bound absent. -/
theorem aroundUpd_strict (g : List Char) (caps : Caps) (r : Option ℚ × Option ℚ)
    (h1 : (aroundUpd g caps r).1 = none) (_h2 : (aroundUpd g caps r).2 = none) :
    False :=
  absurd h1 (tightenMin_ne_none _ _)

/-- Walking a pass's match fold backwards: when the state after folding
a match list has an absent bound, that bound was already absent before
the fold, because every update preserves absence only backwards. -/
theorem passFold_backward
    (upd : List Char → Caps → Option ℚ × Option ℚ → Option ℚ × Option ℚ)
    (hP1 : ∀ g caps r, (upd g caps r).1 = none → r.1 = none)
    (hP2 : ∀ g caps r, (upd g caps r).2 = none → r.2 = none) :
    ∀ (l : List (List Char × Caps)) (st : ExtractState),
      (l.foldl
        (fun acc m =>
          let mm := upd m.1 m.2 (acc.min_price, acc.max_price)
          ⟨replaceAll acc.s m.1 [' '], mm.1, mm.2⟩)
        st).min_price = none →
      (l.foldl
        (fun acc m =>
          let mm := upd m.1 m.2 (acc.min_price, acc.max_price)
          ⟨replaceAll acc.s m.1 [' '], mm.1, mm.2⟩)
        st).max_price = none →
      st.min_price = none ∧ st.max_price = none := by
  intro l
  induction l with
  | nil =>
    intro st h1 h2
    exact ⟨h1, h2⟩
  | cons m tl ih =>
    intro st h1 h2
    simp only [List.foldl_cons] at h1 h2
    have h := ih
      ⟨replaceAll st.s m.1 [' '],
        (upd m.1 m.2 (st.min_price, st.max_price)).1,
        (upd m.1 m.2 (st.min_price, st.max_price)).2⟩ h1 h2
    exact ⟨hP1 m.1 m.2 (st.min_price, st.max_price) h.1,
      hP2 m.1 m.2 (st.min_price, st.max_price) h.2⟩

/-- When both bounds are still absent after a pass whose update always
sets a bound on every match, the pass matched nothing and left the state
(text included) unchanged, and both bounds were absent before it. -/
theorem runPass_eq_of_none
    (upd : List Char → Caps → Option ℚ × Option ℚ → Option ℚ × Option ℚ)
    (hP1 : ∀ g caps r, (upd g caps r).1 = none → r.1 = none)
    (hP2 : ∀ g caps r, (upd g caps r).2 = none → r.2 = none)
    (hstrict : ∀ g caps r,
      (upd g caps r).1 = none → (upd g caps r).2 = none → False)
    (pat : RE) (st : ExtractState)
    (h1 : (runPass upd pat st).min_price = none)
    (h2 : (runPass upd pat st).max_price = none) :
    runPass upd pat st = st ∧ st.min_price = none ∧ st.max_price = none := by
  unfold runPass at h1 h2 ⊢
  cases hl : findAll pat st.s with
  | nil =>
    rw [hl] at h1 h2
    exact ⟨rfl, h1, h2⟩
  | cons m tl =>
    exfalso
    rw [hl] at h1 h2
    simp only [List.foldl_cons] at h1 h2
    obtain ⟨hm1, hm2⟩ := passFold_backward upd hP1 hP2 tl _ h1 h2
    exact hstrict m.1 m.2 (st.min_price, st.max_price) hm1 hm2

/-- The expensive-words stage never changes the upper bound. -/
theorem softExpensive_max_eq (st : ExtractState) :
    (softExpensive st).max_price = st.max_price := by
  unfold softExpensive
  split <;> rfl

/-- The cheap-words stage never changes the lower bound. -/
theorem softCheap_min_eq (st : ExtractState) :
    (softCheap st).min_price = st.min_price := by
  unfold softCheap
  split <;> rfl

/-- When the upper bound is still absent after the cheap-words stage,
no cheap word occurred and the stage changed nothing. -/
theorem softCheap_eq_of_max_none (st : ExtractState)
    (h : (softCheap st).max_price = none) : softCheap st = st := by
  cases hs : reSearch patCheap st.s with
  | false => simp [softCheap, hs]
  | true =>
    exfalso
    simp only [softCheap, hs] at h
    cases hm : st.max_price with
    | none => rw [hm] at h; simp at h
    | some v => rw [hm] at h; simp at h

/-- When the lower bound is still absent after the expensive-words
stage, no expensive word occurred and the stage changed nothing. -/
theorem softExpensive_eq_of_min_none (st : ExtractState)
    (h : (softExpensive st).min_price = none) : softExpensive st = st := by
  cases hs : reSearch patExpensive st.s with
  | false => simp [softExpensive, hs]
  | true =>
    exfalso
    simp only [softExpensive, hs] at h
    cases hm : st.min_price with
    | none => rw [hm] at h; simp at h
    | some v => rw [hm] at h; simp at h

/-- When the full pipeline of passes ends with both bounds absent,
every pass matched nothing: the final state is the initial one, its
working text untouched. -/
theorem stages_eq_of_none (st : ExtractState)
    (hmin :
      (softExpensive (softCheap (runPass aroundUpd patExactly
        (runPass aroundUpd patAround (runPass minUpd patGe (runPass minUpd patOver
          (runPass maxUpd patUpTo (runPass maxUpd patLe (runPass maxUpd patUnder
            (runPass intervalUpd patDash
              (runPass intervalUpd patBetween st))))))))))).min_price = none)
    (hmax :
      (softExpensive (softCheap (runPass aroundUpd patExactly
        (runPass aroundUpd patAround (runPass minUpd patGe (runPass minUpd patOver
          (runPass maxUpd patUpTo (runPass maxUpd patLe (runPass maxUpd patUnder
            (runPass intervalUpd patDash
              (runPass intervalUpd patBetween st))))))))))).max_price = none) :
    softExpensive (softCheap (runPass aroundUpd patExactly
      (runPass aroundUpd patAround (runPass minUpd patGe (runPass minUpd patOver
        (runPass maxUpd patUpTo (runPass maxUpd patLe (runPass maxUpd patUnder
          (runPass intervalUpd patDash
            (runPass intervalUpd patBetween st)))))))))) = st := by
  set A1 := runPass intervalUpd patBetween st with hA1
  set A2 := runPass intervalUpd patDash A1 with hA2
  set A3 := runPass maxUpd patUnder A2 with hA3
  set A4 := runPass maxUpd patLe A3 with hA4
  set A5 := runPass maxUpd patUpTo A4 with hA5
  set A6 := runPass minUpd patOver A5 with hA6
  set A7 := runPass minUpd patGe A6 with hA7
  set A8 := runPass aroundUpd patAround A7 with hA8
  set A9 := runPass aroundUpd patExactly A8 with hA9
  have hmax2 : (softCheap A9).max_price = none := by
    rw [← softExpensive_max_eq (softCheap A9)]; exact hmax
  have hce : softCheap A9 = A9 := softCheap_eq_of_max_none A9 hmax2
  have hmin2 : (softExpensive A9).min_price = none := by
    rw [← hce]; exact hmin
  have hee : softExpensive A9 = A9 := softExpensive_eq_of_min_none A9 hmin2
  have h9min : A9.min_price = none := by rw [← hee]; exact hmin2
  have h9max : A9.max_price = none := by rw [← hce]; exact hmax2
  rw [hce, hee]
  rw [hA9] at h9min h9max
  obtain ⟨he9, h8min, h8max⟩ := runPass_eq_of_none aroundUpd aroundUpd_P1
    aroundUpd_P2 aroundUpd_strict patExactly A8 h9min h9max
  rw [hA9, he9]
  rw [hA8] at h8min h8max
  obtain ⟨he8, h7min, h7max⟩ := runPass_eq_of_none aroundUpd aroundUpd_P1
    aroundUpd_P2 aroundUpd_strict patAround A7 h8min h8max
  rw [hA8, he8]
  rw [hA7] at h7min h7max
  obtain ⟨he7, h6min, h6max⟩ := runPass_eq_of_none minUpd minUpd_P1
    minUpd_P2 minUpd_strict patGe A6 h7min h7max
  rw [hA7, he7]
  rw [hA6] at h6min h6max
  obtain ⟨he6, h5min, h5max⟩ := runPass_eq_of_none minUpd minUpd_P1
    minUpd_P2 minUpd_strict patOver A5 h6min h6max
  rw [hA6, he6]
  rw [hA5] at h5min h5max
  obtain ⟨he5, h4min, h4max⟩ := runPass_eq_of_none maxUpd maxUpd_P1
    maxUpd_P2 maxUpd_strict patUpTo A4 h5min h5max
  rw [hA5, he5]
  rw [hA4] at h4min h4max
  obtain ⟨he4, h3min, h3max⟩ := runPass_eq_of_none maxUpd maxUpd_P1
    maxUpd_P2 maxUpd_strict patLe A3 h4min h4max
  rw [hA4, he4]
  rw [hA3] at h3min h3max
  obtain ⟨he3, h2min, h2max⟩ := runPass_eq_of_none maxUpd maxUpd_P1
    maxUpd_P2 maxUpd_strict patUnder A2 h3min h3max
  rw [hA3, he3]
  rw [hA2] at h2min h2max
  obtain ⟨he2, h1min, h1max⟩ := runPass_eq_of_none intervalUpd intervalUpd_P1
    intervalUpd_P2 intervalUpd_strict patDash A1 h2min h2max
  rw [hA2, he2]
  rw [hA1] at h1min h1max
  obtain ⟨he1, h0min, h0max⟩ := runPass_eq_of_none intervalUpd intervalUpd_P1
    intervalUpd_P2 intervalUpd_strict patBetween st h1min h1max
  rw [hA1, he1]

/-- C1 fails as stated: on the input "over 10 under 5" the extractor
returns min = 10 and max = 5, so the final range has its lower bound
strictly above its upper bound. -/
theorem c1_counterexample :
    ¬ rangeNormalized (_extract_price_filters "over 10 under 5").2.1
      (_extract_price_filters "over 10 under 5").2.2 := by
  intro h
  have h10 : (_extract_price_filters "over 10 under 5").2.1 = some 10 := by decide
  have h5 : (_extract_price_filters "over 10 under 5").2.2 = some 5 := by decide
  exact absurd (h 10 5 h10 h5) (by decide)

/-- C1 (amended): every update only tightens — a present lower bound is
replaced by the maximum of itself and the candidate, a present upper
bound by the minimum — and each interval match is folded as a sorted
pair; but the final range is not normalized: conflicting rules can leave
min above max, as "over 10 under 5" (min = 10, max = 5) shows. -/
theorem c1_theorem :
    (∀ m v : ℚ, tightenMin (some m) v = some (max m v)) ∧
    (∀ m v : ℚ, tightenMax (some m) v = some (min m v)) ∧
    (∀ (mn mx : Option ℚ) (a b : ℚ),
      intervalFold mn mx a b = (tightenMin mn (min a b), tightenMax mx (max a b))) ∧
    (_extract_price_filters "over 10 under 5").2 = (some 10, some 5) := by
  refine ⟨?_, ?_, ?_, by decide⟩
  · intro m v
    simp [tightenMin, pymax_eq_max]
  · intro m v
    simp [tightenMax, pymin_eq_min]
  · intro mn mx a b
    simp [intervalFold, pymin_eq_min, pymax_eq_max]

/-- C2 fails as stated: for q = "under 5" constraint removal empties the
working text, the fallback restores the original, and re-extracting the
cleaned text yields max = 5 again instead of a fully unconstrained
range. -/
theorem c2_counterexample :
    (_extract_price_filters "under 5").1 = "under 5" ∧
    (_extract_price_filters ((_extract_price_filters "under 5").1)).2 ≠
      ((none : Option ℚ), (none : Option ℚ)) ∧
    (_extract_price_filters ((_extract_price_filters "under 5").1)).2.2 = some 5 :=
  ⟨by decide, by decide, by decide⟩

/-- C2 (amended): re-extraction from the cleaned text is fully
unconstrained and a no-op on the text when the cleaned text retains no
price phrase, as for "towels under 5" → "towels"; it fails when removal
empties the text and the fallback restores the original price phrase. -/
theorem c2_theorem :
    _extract_price_filters "towels under 5" = ("towels", none, some 5) ∧
    _extract_price_filters ((_extract_price_filters "towels under 5").1) =
      ("towels", none, none) :=
  ⟨by decide, by decide⟩

/-- C3 fails as stated: "towels 5 to 10 dollars" yields a fully
unconstrained range, not the range of "towels 5-10". -/
theorem c3_counterexample :
    (_extract_price_filters "towels 5 to 10 dollars").2 =
      ((none : Option ℚ), (none : Option ℚ)) ∧
    (_extract_price_filters "towels 5-10").2 = (some 5, some 10) ∧
    (_extract_price_filters "towels 5 to 10 dollars").2 ≠
      (_extract_price_filters "towels 5-10").2 :=
  ⟨by decide, by decide, by decide⟩

/-- C3 (amended): only "towels 5-10" yields min = 5, max = 10; the
interval pass accepts "X to Y" only when preceded by "between" or
"from", and a number preceded by a dollar sign is not matched (currency
tokens are recognized only after the number), so "towels $5 - $10" and
"towels 5 to 10 dollars" both yield fully unconstrained ranges. -/
theorem c3_theorem :
    _extract_price_filters "towels 5-10" = ("towels", some 5, some 10) ∧
    _extract_price_filters "towels $5 - $10" = ("towels $5 - $10", none, none) ∧
    _extract_price_filters "towels 5 to 10 dollars" =
      ("towels 5 to 10 dollars", none, none) :=
  ⟨by decide, by decide, by decide⟩

/-- C4 fails as stated: on the empty input the fallback returns the
original, which is itself empty, so cleaned_text is empty. -/
theorem c4_counterexample :
    (_extract_price_filters "").1 = "" := by decide

/-- C4 (amended): for every non-empty input string the extractor returns
a non-empty cleaned_text — when removal empties the working text the
original raw input is returned verbatim — but the empty input yields an
empty cleaned_text. -/
theorem c4_theorem (q : String) (h : q ≠ "") : (_extract_price_filters q).1 ≠ "" :=
  finalClean_ne q _ h

/-- Witness for C4: the query "under $10" is non-empty and its cleaned
text is non-empty. -/
theorem c4_witness :
    ("under $10" : String) ≠ "" ∧ (_extract_price_filters "under $10").1 ≠ "" :=
  ⟨by decide, c4_theorem "under $10" (by decide)⟩

/-- C5 fails as stated: "Towels" contains no price phrase, yet the
cleaned text is the lower-cased "towels", not the trimmed original. -/
theorem c5_counterexample :
    _extract_price_filters "Towels" = ("towels", none, none) ∧
    ("towels" : String) ≠ "Towels" :=
  ⟨by decide, by decide⟩

/-- C5 (amended): the extractor is total and, for every input whose
returned range is fully unconstrained — in particular the empty string
or any string with no recognizable price phrase — the cleaned text is
exactly the final assembly of the untouched lower-cased padded input:
the lower-cased, whitespace-collapsed, trimmed input when that text is
non-empty, and the original input verbatim otherwise.  So "Towels"
comes back as "towels" rather than the trimmed original, the empty
string comes back empty, and the whitespace-only input "   " comes back
verbatim through the fallback. -/
theorem c5_theorem :
    (∀ q : String,
      (_extract_price_filters q).2.1 = none →
      (_extract_price_filters q).2.2 = none →
      (_extract_price_filters q).1 =
        finalClean q (' ' :: (pyStrip (q.data.map Char.toLower) ++ [' ']))) ∧
    _extract_price_filters "" = ("", none, none) ∧
    _extract_price_filters "Towels" = ("towels", none, none) ∧
    _extract_price_filters "   " = ("   ", none, none) := by
  refine ⟨?_, by decide, by decide, by decide⟩
  intro q hmin hmax
  dsimp only [_extract_price_filters] at hmin hmax ⊢
  rw [stages_eq_of_none
    ⟨' ' :: (pyStrip (q.data.map Char.toLower) ++ [' ']), none, none⟩ hmin hmax]

/-- Witness for C5: the no-phrase input "Towels" has both bounds absent
and its cleaned text is the assembly of the lower-cased input. -/
theorem c5_witness :
    ((_extract_price_filters "Towels").2.1 = none) ∧
    ((_extract_price_filters "Towels").2.2 = none) ∧
    (_extract_price_filters "Towels").1 =
      finalClean "Towels"
        (' ' :: (pyStrip (("Towels" : String).data.map Char.toLower) ++ [' '])) :=
  ⟨by decide, by decide, c5_theorem.1 "Towels" (by decide) (by decide)⟩

/-- C6: the cheap-words pass sets a default max of 15.0 only when no max
bound is already set, the expensive-words pass sets a default min of
100.0 only when no min bound is already set, neither pass touches the
other bound, matched words are erased from the text in either case, and
the claim's two examples evaluate as stated. -/
theorem c6_theorem :
    (∀ st : ExtractState, st.max_price ≠ none → (softCheap st).max_price = st.max_price) ∧
    (∀ st : ExtractState, st.max_price = none → reSearch patCheap st.s = true →
      (softCheap st).max_price = some 15) ∧
    (∀ st : ExtractState, reSearch patCheap st.s = true →
      (softCheap st).s = reSub patCheap st.s) ∧
    (∀ st : ExtractState, (softCheap st).min_price = st.min_price) ∧
    (∀ st : ExtractState, st.min_price ≠ none → (softExpensive st).min_price = st.min_price) ∧
    (∀ st : ExtractState, st.min_price = none → reSearch patExpensive st.s = true →
      (softExpensive st).min_price = some 100) ∧
    (∀ st : ExtractState, reSearch patExpensive st.s = true →
      (softExpensive st).s = reSub patExpensive st.s) ∧
    (∀ st : ExtractState, (softExpensive st).max_price = st.max_price) ∧
    _extract_price_filters "cheap, but over 5" = (", but", some 5, some 15) ∧
    _extract_price_filters "premium detergent" = ("detergent", some 100, none) := by
  refine ⟨?_, ?_, ?_, ?_, ?_, ?_, ?_, ?_, by decide, by decide⟩
  · intro st h
    unfold softCheap
    rw [if_neg h]
    split <;> rfl
  · intro st h hs
    simp [softCheap, hs, h]
  · intro st hs
    simp [softCheap, hs]
  · intro st
    unfold softCheap
    split <;> rfl
  · intro st h
    unfold softExpensive
    rw [if_neg h]
    split <;> rfl
  · intro st h hs
    simp [softExpensive, hs, h]
  · intro st hs
    simp [softExpensive, hs]
  · intro st
    unfold softExpensive
    split <;> rfl

/-- Witness for C6: a state whose max bound is already 5 keeps it
through the cheap-words pass even though the word "cheap" occurs. -/
theorem c6_witness :
    ((some (5 : ℚ) : Option ℚ) ≠ none) ∧
    (softCheap ⟨(" cheap ").data, none, some 5⟩).max_price = some 5 :=
  ⟨by decide, c6_theorem.1 ⟨(" cheap ").data, none, some 5⟩ (by decide)⟩

/-- C7: folding two upper-bound candidates into an unset max yields
their minimum and two lower-bound candidates into an unset min their
maximum, and the claim's two examples evaluate as stated: "under 50"
with "under 10" gives max = 10, "over 5" with "over 20" gives
min = 20. -/
theorem c7_theorem :
    (∀ x y : ℚ, tightenMax (tightenMax none x) y = some (min x y)) ∧
    (∀ x y : ℚ, tightenMin (tightenMin none x) y = some (max x y)) ∧
    _extract_price_filters "towels under 50 under 10" = ("towels", none, some 10) ∧
    _extract_price_filters "towels over 5 over 20" = ("towels", some 20, none) := by
  refine ⟨?_, ?_, by decide, by decide⟩
  · intro x y
    simp [tightenMax, pymin_eq_min]
  · intro x y
    simp [tightenMin, pymax_eq_max]

/-- C8: the fold of an interval match is symmetric in the two numbers,
and "between 15 and 5" and "between 5 and 15" both yield min = 5,
max = 15. -/
theorem c8_theorem :
    (∀ (mn mx : Option ℚ) (a b : ℚ), intervalFold mn mx a b = intervalFold mn mx b a) ∧
    _extract_price_filters "between 15 and 5" = ("between 15 and 5", some 5, some 15) ∧
    _extract_price_filters "between 5 and 15" = ("between 5 and 15", some 5, some 15) ∧
    (_extract_price_filters "between 15 and 5").2 =
      (_extract_price_filters "between 5 and 15").2 := by
  refine ⟨?_, by decide, by decide, by decide⟩
  · intro mn mx a b
    simp [intervalFold, pymin_eq_min, pymax_eq_max, min_comm, max_comm]

/-- C9: for every positive top_k the limit handed to the external search
call is max(top_k, 12): it is 12 whenever top_k ≤ 12 and top_k whenever
top_k > 12. -/
theorem c9_theorem (q : String) (top_k : ℤ) (_h : 0 < top_k) :
    (buildSearchCall q top_k).limit = max top_k 12 ∧
    (top_k ≤ 12 → (buildSearchCall q top_k).limit = 12) ∧
    (12 < top_k → (buildSearchCall q top_k).limit = top_k) := by
  refine ⟨rfl, fun hle => ?_, fun hgt => ?_⟩
  · show max top_k 12 = 12
    exact max_eq_right hle
  · show max top_k 12 = top_k
    exact max_eq_left hgt.le

/-- Witness for C9: with top_k = 8 the requested limit is 12, with
top_k = 20 it is 20. -/
theorem c9_witness :
    ((0 : ℤ) < 8) ∧ (buildSearchCall "towels" 8).limit = 12 ∧
    ((0 : ℤ) < 20) ∧ (buildSearchCall "towels" 20).limit = 20 :=
  ⟨by decide, ( c9_theorem "towels" 8 (by decide)).2.1 (by decide),
    by decide, ( c9_theorem "towels" 20 (by decide)).2.2 (by decide)⟩

/-- C10: the bound keywords carry no word-boundary anchors, so in
"recover 20 files" the substring "over 20" inside "recover" is taken as
a lower-bound phrase: the extractor returns min = 20 and deletes the
matched characters from the middle of the word, leaving "rec files". -/
theorem c10_theorem :
    _extract_price_filters "recover 20 files" = ("rec files", some 20, none) := by
  decide
